import Mathlib

/-!
Verification development for the multi-agent business-idea evaluation
pipeline (backend/app/services).  Python sources are shallowly embedded:
pure functions become Lean functions over `List Char` / `ℚ` / `ℕ`,
fallible code returns `Option` or `Except`, and LLM invocations are
modelled as oracle parameters.  Machine floats are modelled by exact
rationals; Python `round(x, 1)` is modelled by round-half-to-even on ℚ.
-/

namespace VB

/-! ## Shared character-level utilities (Python `str` is a sequence of code points) -/

/-- Python whitespace set used by `str.strip()` and by the regex class `\s`
(ASCII fragment: space, tab, newline, carriage return, vertical tab, form feed). -/
def pyIsSpace (c : Char) : Bool :=
  c == ' ' || c == '\t' || c == '\n' || c == '\r' || c == '\x0b' || c == '\x0c'

/-- ASCII decimal digit, the regex class `\d` on ASCII input. -/
def pyIsDigit (c : Char) : Bool :=
  '0' ≤ c && c ≤ '9'

/-- Word character for the regex boundary `\b` (ASCII fragment of Python `\w`). -/
def pyIsWord (c : Char) : Bool :=
  c.isAlphanum || c == '_'

/-- `pat` is a prefix of `s` (character-wise). -/
def charPrefix : List Char → List Char → Bool
  | [], _ => true
  | _ :: _, [] => false
  | p :: ps, c :: cs => p == c && charPrefix ps cs

/-- Worker for Python `s.split(sep)`, structurally recursive on a fuel
bound: each step either consumes one occurrence of the non-empty separator
(at least one character) or one ordinary character, so fuel `s.length`
always suffices and the fuel-exhausted branch is only reached on `[]`,
where it agrees with the `[]` case. -/
def splitOnSeqGo (sep : List Char) : ℕ → List Char → List (List Char)
  | 0, s => [s]
  | fuel + 1, s =>
    if !sep.isEmpty && charPrefix sep s then
      [] :: splitOnSeqGo sep fuel (s.drop sep.length)
    else
      match s with
      | [] => [[]]
      | c :: rest =>
        match splitOnSeqGo sep fuel rest with
        | [] => [[c]]
        | p :: ps => (c :: p) :: ps

/-- Python `s.split(sep)` for a fixed non-empty separator: splits at each
leftmost non-overlapping occurrence, keeping empty pieces. -/
def splitOnSeq (sep : List Char) (s : List Char) : List (List Char) :=
  splitOnSeqGo sep s.length s

/-- Python `str.strip()` (with the whitespace default). -/
def pyStrip (s : List Char) : List Char :=
  ((s.dropWhile pyIsSpace).reverse.dropWhile pyIsSpace).reverse

/-! ## Python-style rounding over ℚ

`checkpoint`-free numeric code (`agent5_consolidation.calculate_overall_score`)
uses Python `round(x, 1)`; Python rounds half to even. -/

/-- Round half to even (Python `round(x)` on a real value). -/
def pyRoundHalfEven (q : ℚ) : ℤ :=
  if q - (⌊q⌋ : ℚ) < 1/2 then ⌊q⌋
  else if (1 : ℚ)/2 < q - (⌊q⌋ : ℚ) then ⌊q⌋ + 1
  else if ⌊q⌋ % 2 = 0 then ⌊q⌋ else ⌊q⌋ + 1

/-- Python `round(q, 1)` modelled exactly on ℚ. -/
def pyRound1 (q : ℚ) : ℚ :=
  ((pyRoundHalfEven (q * 10) : ℚ)) / 10

/-! ## Dimension catalogue (`app/services/agents/prompts.py`)

Only the fields the claims depend on are embedded: the `id` and `name` of
each of the 11 dimensions (descriptions and key questions feed prompt text
only) and the weight table `DIMENSION_WEIGHTS`. -/

structure DimensionDef where
  id : ℕ
  name : String
deriving DecidableEq

/-- The 11 entries of `DIMENSIONS`, in source order. -/
def DIMENSIONS : List DimensionDef :=
  [⟨1, "Market Potential"⟩,
   ⟨2, "Differentiated Approach and Positioning"⟩,
   ⟨3, "Sustainable Competitive Advantage"⟩,
   ⟨4, "Differentiating Element"⟩,
   ⟨5, "Technical Feasibility"⟩,
   ⟨6, "Affordable & Rapid Implementation"⟩,
   ⟨7, "AI Enablement for Core Value"⟩,
   ⟨8, "Barrier to Entry"⟩,
   ⟨9, "Scalable Technology & Operations"⟩,
   ⟨10, "Product-Focused Output"⟩,
   ⟨11, "Subscription-Based Platform Access"⟩]

/-- `DIMENSION_WEIGHTS.get(name, 0)`: the weight dict as a total lookup with
default 0 for a missing key. -/
def dimensionWeight (name : String) : ℚ :=
  if name = "Market Potential" then 12/100
  else if name = "Differentiated Approach and Positioning" then 10/100
  else if name = "Sustainable Competitive Advantage" then 10/100
  else if name = "Differentiating Element" then 8/100
  else if name = "Technical Feasibility" then 9/100
  else if name = "Affordable & Rapid Implementation" then 10/100
  else if name = "AI Enablement for Core Value" then 8/100
  else if name = "Barrier to Entry" then 11/100
  else if name = "Scalable Technology & Operations" then 9/100
  else if name = "Product-Focused Output" then 7/100
  else if name = "Subscription-Based Platform Access" then 6/100
  else 0

/-! ## Agent 5 consolidation (`agent5_consolidation.py`) -/

/-- The view `calculate_overall_score` takes of one evaluation dict:
`eval_data.get("dimension_name")` (missing key → `None`) and
`eval_data.get("score", 0)` (missing key or `None` score). -/
structure ScoredDim where
  dimension_name : Option String
  score : Option ℚ
deriving DecidableEq

/-- `eval_data.get("score", 0) or 0`: a missing or `None` (or zero) score
contributes the value 0. -/
def scoreOf (d : ScoredDim) : ℚ :=
  match d.score with
  | none => 0
  | some s => s

/-- `self.dimension_weights.get(dim_name, 0)` with `dim_name` possibly `None`
(a `None` key is absent from the dict, so the default 0 applies). -/
def weightOf (d : ScoredDim) : ℚ :=
  match d.dimension_name with
  | none => 0
  | some n => dimensionWeight n

/-- `Agent5Consolidation.calculate_overall_score`: accumulate
`score * weight` over the evaluations, then `round(weighted_sum, 1)`. -/
def calculate_overall_score (evals : List ScoredDim) : ℚ :=
  pyRound1 (evals.foldl (fun acc e => acc + scoreOf e * weightOf e) 0)

/-- `Agent5Consolidation.get_recommendation`: fixed thresholds on the
overall score. -/
def get_recommendation (s : ℚ) : String :=
  if 8 ≤ s then "STRONG_PROCEED"
  else if 6 ≤ s then "CONDITIONAL_PROCEED"
  else if 4 ≤ s then "REQUIRES_REFINEMENT"
  else "REJECT"

/-! ## Agent 3 dimensional evaluation (`agent3_dimensions.py`)

`_parse_score` searches free text with the Python regex

  `\*\*Score:\*\*\s*(\d+(?:\.\d+)?)/10|\bScore:\s*(\d+(?:\.\d+)?)/10`

using `re.search` (leftmost match position; at each position the left
alternative is tried first).  The model below mirrors that operationally:
greedy digit runs never need intra-run backtracking because a shorter run
would leave a digit where `/` or `.` is required, so only the optional
fractional group toggles.  Word characters for `\b` are modelled as ASCII
alphanumerics plus underscore. -/

/-- Numeric value of an ASCII digit run. -/
def digitsToNat (ds : List Char) : ℕ :=
  ds.foldl (fun n c => 10 * n + (c.toNat - ('0').toNat)) 0

/-- The digit strings captured by `(\d+(?:\.\d+)?)`, kept at ℕ level so
that the scanner stays kernel-computable. -/
structure RawScore where
  intPart : ℕ
  fracPart : ℕ
  fracLen : ℕ
deriving DecidableEq

/-- Value of `float()` on the captured group, as an exact rational. -/
def rawScoreValue (r : RawScore) : ℚ :=
  (r.intPart : ℚ) + (r.fracPart : ℚ) / (10 ^ r.fracLen)

/-- Match `(\d+(?:\.\d+)?)/10` at the start of `s`, returning the captured
digits. -/
def matchNumberSlash10 (s : List Char) : Option RawScore :=
  let ds := s.takeWhile pyIsDigit
  let rest := s.dropWhile pyIsDigit
  if ds.isEmpty then none
  else
    match rest with
    | '.' :: rest2 =>
      let ds2 := rest2.takeWhile pyIsDigit
      let rest3 := rest2.dropWhile pyIsDigit
      if !ds2.isEmpty && charPrefix ['/', '1', '0'] rest3 then
        some ⟨digitsToNat ds, digitsToNat ds2, ds2.length⟩
      else if charPrefix ['/', '1', '0'] rest then
        some ⟨digitsToNat ds, 0, 0⟩
      else none
    | _ =>
      if charPrefix ['/', '1', '0'] rest then some ⟨digitsToNat ds, 0, 0⟩ else none

/-- The literal `**Score:**`. -/
def boldScoreLit : List Char :=
  ['*', '*', 'S', 'c', 'o', 'r', 'e', ':', '*', '*']

/-- The literal `Score:`. -/
def plainScoreLit : List Char :=
  ['S', 'c', 'o', 'r', 'e', ':']

/-- Left alternative `\*\*Score:\*\*\s*(\d+(?:\.\d+)?)/10` at this position. -/
def tryBoldAt (s : List Char) : Option RawScore :=
  if charPrefix boldScoreLit s then
    matchNumberSlash10 ((s.drop boldScoreLit.length).dropWhile pyIsSpace)
  else none

/-- Right alternative `\bScore:\s*(\d+(?:\.\d+)?)/10` at this position;
`prevIsWord` records whether the previous character is a word character
(`\b` requires it is not, since `S` is a word character). -/
def tryPlainAt (prevIsWord : Bool) (s : List Char) : Option RawScore :=
  if !prevIsWord && charPrefix plainScoreLit s then
    matchNumberSlash10 ((s.drop plainScoreLit.length).dropWhile pyIsSpace)
  else none

/-- `re.search` over the text: scan positions left to right, at each trying
the bold alternative then the plain one. -/
def searchScore (prevIsWord : Bool) (s : List Char) : Option RawScore :=
  match tryBoldAt s with
  | some v => some v
  | none =>
    match tryPlainAt prevIsWord s with
    | some v => some v
    | none =>
      match s with
      | [] => none
      | c :: rest => searchScore (pyIsWord c) rest

/-- The clamp `min(10, max(0, score))` applied to the parsed raw score. -/
def clampScore (q : ℚ) : ℚ :=
  min 10 (max 0 q)

/-- `Agent3Dimensions._parse_score`: regex search then clamp to [0, 10];
`None` when no score pattern matches (the enclosing `try` never fires for a
pure pattern search, so no exception escapes). -/
def parse_score (s : List Char) : Option ℚ :=
  (searchScore false s).map (fun r => clampScore (rawScoreValue r))

/-- Outcome of one `llm.invoke` call: either the provider raises or it
returns response text. -/
inductive LLMOutcome where
  | raises
  | responds (text : List Char)
deriving DecidableEq

/-- One evaluation-result dict built by `evaluate_dimension`. -/
structure EvalResult where
  dimension_id : ℕ
  dimension_name : String
  score : Option ℚ
  raw_output : List Char
deriving DecidableEq

/-- `Agent3Dimensions.evaluate_dimension` (checkpoint manager absent): the
whole body runs inside `try`; if the LLM call raises, the handler logs and
returns `None`, otherwise the result dict with the parsed score is returned. -/
def evaluate_dimension (dim : DimensionDef) (outcome : LLMOutcome) : Option EvalResult :=
  match outcome with
  | LLMOutcome.raises => none
  | LLMOutcome.responds text =>
    some { dimension_id := dim.id
           dimension_name := dim.name
           score := parse_score text
           raw_output := text }

/-- One iteration of the `evaluate_all` loop: `if evaluation:` appends only
a truthy (non-`None`) result, so a failed dimension adds nothing. -/
def evalStep (outcomes : ℕ → LLMOutcome) (acc : List EvalResult) (dim : DimensionDef) :
    List EvalResult :=
  match evaluate_dimension dim (outcomes dim.id) with
  | some e => acc ++ [e]
  | none => acc

/-- `Agent3Dimensions.evaluate_all` (checkpoint manager absent): iterate the
11 dimensions in order, accumulating only successful evaluations. -/
def evaluate_all (outcomes : ℕ → LLMOutcome) : List EvalResult :=
  DIMENSIONS.foldl (evalStep outcomes) []

/-! ## Checkpoint store (`checkpoint.py`)

`CheckpointManager` writes one file per save, named by the flat string
`f"{agent_name}_{pdf_name}_{sector}_{timestamp}.json"` (the provider and
model appear only inside the JSON body, not in the file name), and resolves
`load_checkpoint` by `Path.glob` over the flat pattern
`f"{agent_name}_{pdf_name}_{sector}_*.json"`, taking the matching file with
the greatest `st_mtime` (Python `max` keeps the first maximal element,
i.e. replaces the running best only on a strictly greater key).

File names are modelled as the flat character strings the source builds —
`pdf_name` (the raw uploaded file's stem) and `sector` are user-controlled
and are spliced in verbatim, so distinct `(pdf, sector)` pairs can collide
on the underscore-delimited name and glob metacharacters in them change
what the pattern matches.  Matching is modelled by an fnmatch-style glob
matcher: `*` matches any character sequence, `?` any single character,
`[seq]` one character of the class (leading `!` negates, a `]` first in the
class is a literal member, `a-b` is a code-point range), and an
unterminated `[` is a literal character; the names contain no path
separators, so `*` not crossing `/` is irrelevant.  Reading a file back
either yields the parsed `"data"` payload or fails (I/O error, invalid
JSON, or a missing `"data"` key), which the `try/except` in
`load_checkpoint` converts to `None`. -/

/-- Scan a character class body for its closing `]`, returning the body and
the rest of the pattern. -/
def findClassClose : List Char → Option (List Char × List Char)
  | [] => none
  | ']' :: rest => some ([], rest)
  | c :: rest =>
    match findClassClose rest with
    | none => none
    | some pr => some (c :: pr.1, pr.2)

/-- Split a class after `[`: a `]` in first position is a literal member. -/
def splitClass (l : List Char) : Option (List Char × List Char) :=
  match l with
  | ']' :: rest =>
    match findClassClose rest with
    | none => none
    | some pr => some (']' :: pr.1, pr.2)
  | _ => findClassClose l

/-- Split a class after `[`, handling the negation marker `!`. -/
def splitClassSpec (l : List Char) : Option (Bool × List Char × List Char) :=
  match l with
  | '!' :: rest =>
    match splitClass rest with
    | none => none
    | some pr => some (true, pr.1, pr.2)
  | _ =>
    match splitClass l with
    | none => none
    | some pr => some (false, pr.1, pr.2)

/-- Membership of a character in a class body, with `a-b` code-point ranges
(a reversed range is empty) and edge `-` literal. -/
def classMember : List Char → Char → Bool
  | [], _ => false
  | a :: '-' :: b :: rest, c => (a ≤ c && c ≤ b) || classMember rest c
  | a :: rest, c => (a == c) || classMember rest c

/-- One step of fnmatch-style glob matching, parameterised by the
continuation used for the recursive positions. -/
def globMatchStep (recur : List Char → List Char → Bool) (p s : List Char) : Bool :=
  match p with
  | [] => s.isEmpty
  | c :: p2 =>
    if c = '*' then
      recur p2 s || (!s.isEmpty && recur (c :: p2) (s.drop 1))
    else if c = '?' then
      match s with
      | [] => false
      | _ :: s2 => recur p2 s2
    else if c = '[' then
      match splitClassSpec p2 with
      | none =>
        match s with
        | [] => false
        | c2 :: s2 => (c == c2) && recur p2 s2
      | some spec =>
        match s with
        | [] => false
        | c2 :: s2 => (classMember spec.2.1 c2 != spec.1) && recur spec.2.2 s2
    else
      match s with
      | [] => false
      | c2 :: s2 => (c == c2) && recur p2 s2

/-- Worker for fnmatch-style glob matching, structurally recursive on a
fuel bound: every step consumes at least one pattern or name character, so
fuel `p.length + s.length` suffices, and the fuel-exhausted branch is only
reached with both lists empty, where it agrees with the real result. -/
def globMatchGo : ℕ → List Char → List Char → Bool
  | 0 => fun p s => p.isEmpty && s.isEmpty
  | fuel + 1 => globMatchStep (globMatchGo fuel)

/-- fnmatch-style glob matching of a name against a pattern, as performed
by `Path.glob` on one name component. -/
def globMatch (p s : List Char) : Bool :=
  globMatchGo (p.length + s.length) p s

/-- The glob metacharacters. -/
def isGlobMeta (c : Char) : Bool :=
  c == '*' || c == '?' || c == '['

/-- A string with no glob metacharacters matches only itself literally. -/
def globLiteral (l : List Char) : Bool :=
  l.all (fun c => !isGlobMeta c)

/-- The run-identifying state of a `CheckpointManager`:
`Path(pdf_path).stem`, sector, provider, model, and the master switch. -/
structure RunContext where
  pdfName : String
  sector : String
  provider : String
  model : String
  useCheckpoints : Bool
deriving DecidableEq

/-- The flat key prefix `f"{agent_name}_{pdf_name}_{sector}_"` shared by
`get_checkpoint_path` and `find_latest_checkpoint`. -/
def checkpointPrefix (ctx : RunContext) (agent : String) : List Char :=
  agent.data ++ ('_' :: ctx.pdfName.data) ++ ('_' :: ctx.sector.data) ++ ['_']

/-- The literal extension `.json`. -/
def jsonExt : List Char :=
  ['.', 'j', 's', 'o', 'n']

/-- The glob pattern `f"{agent_name}_{pdf_name}_{sector}_*.json"`. -/
def checkpointPattern (ctx : RunContext) (agent : String) : List Char :=
  checkpointPrefix ctx agent ++ ('*' :: jsonExt)

/-- The file name `f"{agent_name}_{pdf_name}_{sector}_{timestamp}.json"`
built by `get_checkpoint_path` (the timestamp is the formatted wall-clock
string). -/
def checkpointName (ctx : RunContext) (agent : String) (ts : List Char) : List Char :=
  checkpointPrefix ctx agent ++ ts ++ jsonExt

/-- Why reading a checkpoint file back can fail. -/
inductive ReadError where
  | ioError
  | jsonError
  | keyError
deriving DecidableEq

instance exceptDecEq {ε α : Type} [DecidableEq ε] [DecidableEq α] :
    DecidableEq (Except ε α) := fun x y =>
  match x, y with
  | Except.ok a, Except.ok b =>
    if h : a = b then isTrue (by rw [h]) else isFalse (fun hh => h (Except.ok.inj hh))
  | Except.error e, Except.error f =>
    if h : e = f then isTrue (by rw [h]) else isFalse (fun hh => h (Except.error.inj hh))
  | Except.ok _, Except.error _ => isFalse (fun hh => Except.noConfusion hh)
  | Except.error _, Except.ok _ => isFalse (fun hh => Except.noConfusion hh)

/-- One file in the checkpoint directory: its flat name, its `st_mtime`,
and what reading it back yields. -/
structure CheckpointFile (α : Type) where
  name : List Char
  mtime : ℕ
  content : Except ReadError α
deriving DecidableEq

/-- One step of Python `max(files, key=lambda p: p.stat().st_mtime)`:
replace the running best only when the new key is strictly greater. -/
def betterCheckpoint {α : Type} (best : Option (CheckpointFile α)) (g : CheckpointFile α) :
    Option (CheckpointFile α) :=
  match best with
  | none => some g
  | some b => some (if b.mtime < g.mtime then g else b)

/-- `CheckpointManager.find_latest_checkpoint`: glob the directory with
`{agent_name}_{pdf_name}_{sector}_*.json`; `None` if nothing matches, else
the matching file with maximal mtime (first wins on ties). -/
def find_latest_checkpoint {α : Type} (store : List (CheckpointFile α)) (ctx : RunContext)
    (agent : String) : Option (CheckpointFile α) :=
  (store.filter (fun f => globMatch (checkpointPattern ctx agent) f.name)).foldl
    betterCheckpoint none

/-- `CheckpointManager.save_checkpoint`: write a fresh file named with the
formatted timestamp, whose JSON body carries the payload under `"data"`
(the provider/model/sector metadata stored alongside it is never consulted
by `load_checkpoint`). -/
def save_checkpoint {α : Type} (ctx : RunContext) (agent : String) (payload : α)
    (ts : List Char) (t : ℕ) (store : List (CheckpointFile α)) : List (CheckpointFile α) :=
  store ++ [{ name := checkpointName ctx agent ts
              mtime := t
              content := Except.ok payload }]

/-- `CheckpointManager.load_checkpoint`: `None` when the master switch is
off or nothing matches; otherwise read the latest matching file, and the
`try/except` maps any read/parse failure to `None`. -/
def load_checkpoint {α : Type} (ctx : RunContext) (agent : String)
    (store : List (CheckpointFile α)) : Option α :=
  if ctx.useCheckpoints then
    match find_latest_checkpoint store ctx agent with
    | none => none
    | some f =>
      match f.content with
      | Except.ok p => some p
      | Except.error _ => none
  else none

/-! ## Idea parsing and selection (`agent2_ideas.py`, `mas_scorer.py`) -/

/-- The textual delimiter `### BUSINESS IDEA #`. -/
def ideaDelim : List Char :=
  ['#', '#', '#', ' ', 'B', 'U', 'S', 'I', 'N', 'E', 'S', 'S', ' ',
   'I', 'D', 'E', 'A', ' ', '#']

/-- `Agent2Ideas.parse_ideas`: split the raw output on the delimiter, skip
the first piece, and rebuild each idea as the delimiter plus the stripped
remainder. -/
def parse_ideas (ideasOutput : List Char) : List (List Char) :=
  match splitOnSeq ideaDelim ideasOutput with
  | [] => []
  | _ :: rest => rest.map (fun idea => ideaDelim ++ pyStrip idea)

/-- Python list subscript `l[i]` for an `int` index: non-negative indexes
from the front, negative indexes are offset by `len(l)`, and anything still
out of range raises `IndexError` (modelled as `none`). -/
def pyIndex {α : Type} (l : List α) (i : ℤ) : Option α :=
  if 0 ≤ i then l.get? i.toNat
  else if 0 ≤ (l.length : ℤ) + i then l.get? ((l.length : ℤ) + i).toNat
  else none

/-- How the idea-selection step of `MASScorer.score_pdf` can fail. -/
inductive SelectError where
  | noIdeas
  | indexError
deriving DecidableEq

/-- `MASScorer.score_pdf` lines 148–151: raise
`ValueError("No business ideas were generated")` when parsing yielded no
ideas, else select `parsed_ideas[min(idea_index, len(parsed_ideas) - 1)]`
(a subscript that is still out of range raises `IndexError`). -/
def select_idea {α : Type} (parsedIdeas : List α) (ideaIndex : ℤ) : Except SelectError α :=
  if parsedIdeas.isEmpty then Except.error SelectError.noIdeas
  else
    match pyIndex parsedIdeas (min ideaIndex ((parsedIdeas.length : ℤ) - 1)) with
    | some x => Except.ok x
    | none => Except.error SelectError.indexError

/-! ## Progress events of one orchestrator run (`mas_scorer.py`, `progress.py`)

`ProgressReporter.start_step`/`complete_step` emit one event each (step
number, status) to the caller-supplied callback.  `score_pdf` drives steps
1–17 in a fixed order: extraction (1), idea generation (2), the 11
dimensions (3–13, via the callback wired into `evaluate_all`, which emits
the completion event on the cache-hit path, the success path and the
caught-exception path alike), synthesis (14–16) and consolidation (17).
Fatal failures (extraction or idea-generation raising, zero parsed ideas,
a synthesis or consolidation exception) abort the run after the events
already emitted.  The oracle below fixes which of those outcomes occur. -/

/-- Event status as far as emitted by `score_pdf` runs. -/
inductive EvStatus where
  | running
  | completed
deriving DecidableEq

/-- A progress event restricted to the fields the claim is about. -/
abbrev ProgEvent := ℕ × EvStatus

/-- How one dimension iteration of `evaluate_all` goes. -/
inductive DimBranch where
  | cacheHit
  | llmOk
  | llmRaises
deriving DecidableEq

/-- Events of one iteration of the `evaluate_all` loop for 0-based
dimension index `idx`: the start callback fires first, and the completion
callback fires on every branch (`continue` after a cache hit, normal
completion, and the caught-exception path). -/
def dimStepEvents (b : DimBranch) (idx : ℕ) : List ProgEvent :=
  match b with
  | DimBranch.cacheHit => [(3 + idx, EvStatus.running), (3 + idx, EvStatus.completed)]
  | DimBranch.llmOk => [(3 + idx, EvStatus.running), (3 + idx, EvStatus.completed)]
  | DimBranch.llmRaises => [(3 + idx, EvStatus.running), (3 + idx, EvStatus.completed)]

/-- Events emitted while `evaluate_all` walks the 11 dimensions. -/
def agent3Events (branch : ℕ → DimBranch) : List ProgEvent :=
  (List.range 11).foldl (fun acc idx => acc ++ dimStepEvents (branch idx) idx) []

/-- Resolution of every external outcome one `score_pdf` run depends on. -/
structure RunOracle where
  extractOk : Bool
  ideasOk : Bool
  parsedCount : ℕ
  dimBranch : ℕ → DimBranch
  summaryOk : Bool
  strengthsOk : Bool
  concernsOk : Bool
  consolidateOk : Bool

/-- The progress events a `score_pdf` run emits, following the source's
statement order, together with whether the run completed (an aborted run
keeps the events emitted before the fatal point). -/
def score_pdf_events (o : RunOracle) : List ProgEvent × Bool :=
  let e1 := [((1 : ℕ), EvStatus.running)]
  if !o.extractOk then (e1, false) else
  let e2 := e1 ++ [(1, EvStatus.completed), (2, EvStatus.running)]
  if !o.ideasOk then (e2, false) else
  let e3 := e2 ++ [(2, EvStatus.completed)]
  if o.parsedCount = 0 then (e3, false) else
  let e4 := e3 ++ agent3Events o.dimBranch ++ [(14, EvStatus.running)]
  if !o.summaryOk then (e4, false) else
  let e5 := e4 ++ [(14, EvStatus.completed), (15, EvStatus.running)]
  if !o.strengthsOk then (e5, false) else
  let e6 := e5 ++ [(15, EvStatus.completed), (16, EvStatus.running)]
  if !o.concernsOk then (e6, false) else
  let e7 := e6 ++ [(16, EvStatus.completed), (17, EvStatus.running)]
  if !o.consolidateOk then (e7, false) else
  (e7 ++ [(17, EvStatus.completed)], true)

/-- The full 34-event sequence of a completed run: for each step 1–17, a
`running` event immediately followed by a `completed` event. -/
def canonicalTrace : List ProgEvent :=
  (List.range 17).foldr
    (fun k acc => (k + 1, EvStatus.running) :: (k + 1, EvStatus.completed) :: acc) []

/-- Checks that step numbers are non-decreasing along an event list. -/
def stepsMonotone : List ProgEvent → Bool
  | [] => true
  | [_] => true
  | a :: b :: rest => decide (a.1 ≤ b.1) && stepsMonotone (b :: rest)

/-- Checks that for each step 1–17 both a `running` and a `completed` event
occur and the `running` one strictly precedes the `completed` one. -/
def runningPrecedesCompleted (evs : List ProgEvent) : Bool :=
  (List.range 17).all fun k =>
    evs.contains (k + 1, EvStatus.running) &&
    evs.contains (k + 1, EvStatus.completed) &&
    decide (List.indexOf (k + 1, EvStatus.running) evs
      < List.indexOf (k + 1, EvStatus.completed) evs)

/-! ## Document chunking and chunked extraction (`pdf_loader.py`, `agent1_extraction.py`) -/

/-- `estimate_tokens`: `len(text) // 4`. -/
def estimate_tokens (text : List Char) : ℕ :=
  text.length / 4

/-- `get_max_tokens_for_provider`: the fixed per-provider ceiling with the
default 8000 (lookup is on the lower-cased provider name; the keys are
already lower case). -/
def get_max_tokens_for_provider (provider : String) : ℕ :=
  if provider = "groq" then 8000
  else if provider = "anthropic" then 150000
  else if provider = "openai" then 100000
  else if provider = "google" then 900000
  else if provider = "ollama" then 8000
  else 8000

/-- The paragraph separator `"\n\n"`. -/
def paraSep : List Char :=
  ['\n', '\n']

/-- Worker for the hard-split loop, structurally recursive on a fuel bound:
each step consumes `maxChars ≥ 1` characters, so fuel `para.length`
suffices and the fuel-exhausted branch is only reached on the empty list,
where it agrees with the empty case. -/
def hardSplitGo (maxChars : ℕ) : ℕ → List Char → List (List Char)
  | 0, p => if p.isEmpty then [] else [p]
  | fuel + 1, p =>
    if p.isEmpty then []
    else p.take maxChars :: hardSplitGo maxChars fuel (p.drop maxChars)

/-- The hard-split loop `for i in range(0, len(para), max_chars)`:
successive `max_chars`-sized slices.  For `max_chars = 0` the source raises
`ValueError` (range step 0); that case is unreachable for a positive token
budget and is modelled arbitrarily as `[para]`. -/
def hardSplit (para : List Char) (maxChars : ℕ) : List (List Char) :=
  if maxChars = 0 then [para]
  else hardSplitGo maxChars para.length para

/-- One iteration of the paragraph loop in `chunk_text`, carrying
`(chunks, current_chunk)`; Python string truthiness is emptiness. -/
def chunkStep (maxChars : ℕ) (st : List (List Char) × List Char) (para : List Char) :
    List (List Char) × List Char :=
  if st.2.length + para.length + 2 > maxChars then
    if st.2.isEmpty then (st.1 ++ hardSplit para maxChars, [])
    else (st.1 ++ [st.2], para)
  else if st.2.isEmpty then (st.1, para)
  else (st.1, st.2 ++ paraSep ++ para)

/-- `chunk_text`: return the text whole when it fits in
`max_chars = max_tokens * 4`, otherwise fold the paragraph loop over
`text.split("\n\n")` and flush the trailing current chunk. -/
def chunk_text (text : List Char) (maxTokens : ℕ) : List (List Char) :=
  let maxChars := maxTokens * 4
  if text.length ≤ maxChars then [text]
  else
    let st := (splitOnSeq paraSep text).foldl (chunkStep maxChars) ([], [])
    if st.2.isEmpty then st.1 else st.1 ++ [st.2]

/-- The separator `"\n\n---\n\n"` between labelled chunk extractions. -/
def chunkSepLit : List Char :=
  ['\n', '\n', '-', '-', '-', '\n', '\n']

/-- The combination step of `_extract_chunked`: label each chunk extraction
and join with `"\n\n---\n\n"`. -/
def joinChunkExtractions (exts : List (List Char)) : List Char :=
  List.intercalate chunkSepLit
    (exts.enum.map
      (fun p => ("[Chunk " ++ toString (p.1 + 1) ++ " Extraction]\n").data ++ p.2))

/-- `Agent1Extraction._extract_chunked`, with the per-chunk extraction LLM
call and the synthesis LLM call as oracles: returns the final text together
with the number of LLM invocations performed.  When more than one chunk
results, one additional synthesis call merges the per-chunk extractions. -/
def extract_chunked (chunkLLM : List Char → List Char) (synthLLM : List Char → List Char)
    (text : List Char) (maxTokens : ℕ) : List Char × ℕ :=
  let chunks := chunk_text text maxTokens
  let combined := joinChunkExtractions (chunks.map chunkLLM)
  if 1 < chunks.length then (synthLLM combined, chunks.length + 1)
  else (combined, chunks.length)

/-! ## Concrete instances used by counterexamples and witnesses -/

/-- An outcome assignment where exactly dimension 7's LLM call raises and
every other dimension's call returns a parseable response. -/
def outcomesDim7Fails : ℕ → LLMOutcome :=
  fun i => if i = 7 then LLMOutcome.raises else LLMOutcome.responds ("Score: 8/10").data

/-- Raw Agent-2 output containing three delimited ideas. -/
def demoIdeasText : List Char :=
  ("### BUSINESS IDEA #1\nPlatform Alpha\n\n### BUSINESS IDEA #2\nPlatform Beta\n\n### BUSINESS IDEA #3\nPlatform Gamma").data

/-- A 12-character document whose second paragraph (8 characters) exceeds
the 4-character budget of `maxTokens = 1`. -/
def demoDoc : List Char :=
  ("ab\n\nabcdefgh").data

/-- A run context as used by an initial run. -/
def ctxOldModel : RunContext :=
  { pdfName := "pitchdeck", sector := "fintech", provider := "openai",
    model := "gpt-4o", useCheckpoints := true }

/-- The same document and sector re-run under a different provider/model. -/
def ctxNewModel : RunContext :=
  { pdfName := "pitchdeck", sector := "fintech", provider := "anthropic",
    model := "claude-sonnet", useCheckpoints := true }

/-- The same document re-run under a different sector label. -/
def ctxOtherSector : RunContext :=
  { pdfName := "pitchdeck", sector := "healthtech", provider := "openai",
    model := "gpt-4o", useCheckpoints := true }

/-- Document stem `pitch` analysed in sector `deck_ai`. -/
def ctxUnderA : RunContext :=
  { pdfName := "pitch", sector := "deck_ai", provider := "openai",
    model := "gpt-4o", useCheckpoints := true }

/-- Document stem `pitch_deck` analysed in sector `ai`: a different
document and sector whose flat key string coincides with `ctxUnderA`'s. -/
def ctxUnderB : RunContext :=
  { pdfName := "pitch_deck", sector := "ai", provider := "openai",
    model := "gpt-4o", useCheckpoints := true }

/-- An uploaded document whose stem contains glob metacharacters. -/
def ctxBracket : RunContext :=
  { pdfName := "[Final] deck", sector := "mobility", provider := "openai",
    model := "gpt-4o", useCheckpoints := true }

/-- A formatted save timestamp. -/
def demoTs : List Char :=
  ("2026-10-12_10-00-00").data

/-- An oracle under which every stage succeeds. -/
def oracleAllOk : RunOracle :=
  { extractOk := true, ideasOk := true, parsedCount := 3,
    dimBranch := fun _ => DimBranch.llmOk, summaryOk := true,
    strengthsOk := true, concernsOk := true, consolidateOk := true }

/-! # Theorems

## Helper lemmas -/

theorem foldl_add_map_sum {α : Type} (f : α → ℚ) (l : List α) (a : ℚ) :
    l.foldl (fun acc e => acc + f e) a = a + (l.map f).sum := by
  induction l generalizing a with
  | nil => simp
  | cons x xs ih => simp [ih, add_assoc]


theorem length_filterMap_countP {α β : Type} (f : α → Option β) (l : List α) :
    (l.filterMap f).length = l.countP (fun a => (f a).isSome) := by
  induction l with
  | nil => simp
  | cons x xs ih => cases hfx : f x <;> simp [List.filterMap_cons, hfx, List.countP_cons, ih]

theorem foldl_evalStep_filterMap (o : ℕ → LLMOutcome) (l : List DimensionDef)
    (acc : List EvalResult) :
    l.foldl (evalStep o) acc = acc ++ l.filterMap (fun d => evaluate_dimension d (o d.id)) := by
  induction l generalizing acc with
  | nil => simp
  | cons x xs ih =>
    rcases hfx : evaluate_dimension x (o x.id) with _ | e <;>
      simp [List.foldl_cons, evalStep, hfx, List.filterMap_cons, ih]

theorem evaluate_all_eq_filterMap (o : ℕ → LLMOutcome) :
    evaluate_all o = DIMENSIONS.filterMap (fun d => evaluate_dimension d (o d.id)) := by
  rw [evaluate_all]
  rw [foldl_evalStep_filterMap]
  simp

/-! ## C3: weighted overall score -/

/-- C3: `calculate_overall_score` is `round(Σ score_i * weight_i, 1)` over
the evaluations with the fixed per-dimension weights; an evaluation whose
score is `None` (or missing) contributes 0 to the sum; the 11 fixed weights
sum to 1; and with all 11 canonical dimensions scored 8.0 the result is
8.0. -/
theorem overall_score_weighted_sum :
    (∀ evals : List ScoredDim,
      calculate_overall_score evals
        = pyRound1 ((evals.map (fun e => scoreOf e * weightOf e)).sum))
    ∧ (∀ e : ScoredDim, e.score = none → scoreOf e * weightOf e = 0)
    ∧ (DIMENSIONS.map (fun d => dimensionWeight d.name)).sum = 1
    ∧ calculate_overall_score (DIMENSIONS.map (fun d => ⟨some d.name, some 8⟩)) = 8 := by
  have h1 : dimensionWeight "Market Potential" = 12/100 := rfl
  have h2 : dimensionWeight "Differentiated Approach and Positioning" = 10/100 := rfl
  have h3 : dimensionWeight "Sustainable Competitive Advantage" = 10/100 := rfl
  have h4 : dimensionWeight "Differentiating Element" = 8/100 := rfl
  have h5 : dimensionWeight "Technical Feasibility" = 9/100 := rfl
  have h6 : dimensionWeight "Affordable & Rapid Implementation" = 10/100 := rfl
  have h7 : dimensionWeight "AI Enablement for Core Value" = 8/100 := rfl
  have h8 : dimensionWeight "Barrier to Entry" = 11/100 := rfl
  have h9 : dimensionWeight "Scalable Technology & Operations" = 9/100 := rfl
  have h10 : dimensionWeight "Product-Focused Output" = 7/100 := rfl
  have h11 : dimensionWeight "Subscription-Based Platform Access" = 6/100 := rfl
  refine ⟨?_, ?_, ?_, ?_⟩
  · intro evals
    rw [calculate_overall_score, foldl_add_map_sum, zero_add]
  · intro e h
    simp [scoreOf, h]
  · simp only [DIMENSIONS, List.map, List.sum_cons, List.sum_nil,
      h1, h2, h3, h4, h5, h6, h7, h8, h9, h10, h11]
    norm_num
  · simp only [calculate_overall_score, DIMENSIONS, List.map, List.foldl, scoreOf, weightOf,
      h1, h2, h3, h4, h5, h6, h7, h8, h9, h10, h11]
    norm_num [pyRound1, pyRoundHalfEven]

/-- C3 witness: a concrete evaluation with a `None` score contributes 0. -/
theorem overall_score_weighted_sum_witness :
    scoreOf ⟨some "Market Potential", none⟩ * weightOf ⟨some "Market Potential", none⟩ = 0 :=
  overall_score_weighted_sum.2.1 ⟨some "Market Potential", none⟩ rfl

/-! ## C4: recommendation thresholds -/

/-- C4: `get_recommendation` maps a score to exactly one tier by the fixed
thresholds 8.0 / 6.0 / 4.0, and in particular 8.0 → STRONG_PROCEED,
7.99 and 6.0 → CONDITIONAL_PROCEED, 3.9 → REJECT. -/
theorem recommendation_tiers :
    (∀ s : ℚ,
      (8 ≤ s → get_recommendation s = "STRONG_PROCEED")
      ∧ (6 ≤ s → s < 8 → get_recommendation s = "CONDITIONAL_PROCEED")
      ∧ (4 ≤ s → s < 6 → get_recommendation s = "REQUIRES_REFINEMENT")
      ∧ (s < 4 → get_recommendation s = "REJECT"))
    ∧ get_recommendation 8 = "STRONG_PROCEED"
    ∧ get_recommendation (799/100) = "CONDITIONAL_PROCEED"
    ∧ get_recommendation 6 = "CONDITIONAL_PROCEED"
    ∧ get_recommendation (39/10) = "REJECT" := by
  refine ⟨?_, ?_, ?_, ?_, ?_⟩
  · intro s
    refine ⟨?_, ?_, ?_, ?_⟩
    · intro h
      rw [get_recommendation, if_pos h]
    · intro h1 h2
      rw [get_recommendation, if_neg (by linarith), if_pos h1]
    · intro h1 h2
      rw [get_recommendation, if_neg (by linarith), if_neg (by linarith), if_pos h1]
    · intro h
      rw [get_recommendation, if_neg (by linarith), if_neg (by linarith), if_neg (by linarith)]
  · rw [get_recommendation, if_pos (by norm_num)]
  · rw [get_recommendation, if_neg (by norm_num), if_pos (by norm_num)]
  · rw [get_recommendation, if_neg (by norm_num), if_pos (by norm_num)]
  · rw [get_recommendation, if_neg (by norm_num), if_neg (by norm_num), if_neg (by norm_num)]

/-- C4 witness: the threshold clauses applied at the concrete score 9. -/
theorem recommendation_tiers_witness :
    get_recommendation 9 = "STRONG_PROCEED" :=
  (recommendation_tiers.1 9).1 (by norm_num)

/-! ## C7: tolerant score parsing with clamping -/

/-- C7: `_parse_score` extracts `Score: X/10` (with or without bold
markers) from free text; the clamp `min(10, max(0, score))` sends a raw 12
to 10 and a raw -3 to 0; parsed results always lie in [0, 10]; and when no
pattern matches the result is `None` (no exception escapes: the function is
total by construction). -/
theorem parse_score_tolerant_clamped :
    clampScore 12 = 10
    ∧ clampScore (-3) = 0
    ∧ parse_score ("Score: 12/10").data = some 10
    ∧ parse_score ("**Score:** 8/10").data = some 8
    ∧ parse_score ("The idea is excellent but no numeric value appears").data = none
    ∧ (∀ s : List Char, searchScore false s = none → parse_score s = none)
    ∧ (∀ (s : List Char) (q : ℚ), parse_score s = some q → 0 ≤ q ∧ q ≤ 10) := by
  refine ⟨?_, ?_, ?_, ?_, by decide, ?_, ?_⟩
  · norm_num [clampScore]
  · norm_num [clampScore]
  · have h : searchScore false ("Score: 12/10").data = some ⟨12, 0, 0⟩ := by decide
    rw [parse_score, h]
    norm_num [rawScoreValue, clampScore]
  · have h : searchScore false ("**Score:** 8/10").data = some ⟨8, 0, 0⟩ := by decide
    rw [parse_score, h]
    norm_num [rawScoreValue, clampScore]
  · intro s h
    simp [parse_score, h]
  · intro s q h
    rcases hs : searchScore false s with _ | r
    · simp [parse_score, hs] at h
    · simp [parse_score, hs] at h
      subst h
      constructor
      · exact le_min (by norm_num) (le_max_left 0 _)
      · exact min_le_left 10 _

/-- C7 witness: the no-match clause applied to concrete prose. -/
theorem parse_score_tolerant_clamped_witness :
    parse_score ("a clean narrative answer").data = none :=
  parse_score_tolerant_clamped.2.2.2.2.2.1 ("a clean narrative answer").data (by decide)

/-! ## C1: one failing dimension -/

/-- C1 counterexample: when exactly dimension 7's LLM call raises and the
other ten succeed, `evaluate_all` returns a 10-element list — not an
11-element list with a `None` score for the failed dimension: no entry for
dimension 7 exists at all, and every returned entry has a parsed score. -/
theorem evaluate_all_drops_failed_dimension :
    (evaluate_all outcomesDim7Fails).length = 10
    ∧ ¬ ((evaluate_all outcomesDim7Fails).length = 11)
    ∧ (∀ e ∈ evaluate_all outcomesDim7Fails, e.dimension_id ≠ 7 ∧ (e.score).isSome = true) := by
  refine ⟨by decide, by decide, by decide⟩

/-- C1 amended: when exactly one dimension's LLM call raises and the other
ten succeed, no exception propagates out of `evaluate_all` (it is a total
function) and it returns exactly the 10 successful evaluations, with the
failed dimension omitted from the list entirely rather than included with a
`None` score. -/
theorem evaluate_all_partial_failure (o : ℕ → LLMOutcome) (k : ℕ)
    (hmem : k ∈ DIMENSIONS.map (fun d => d.id))
    (hk : ∀ d ∈ DIMENSIONS, (o d.id = LLMOutcome.raises ↔ d.id = k)) :
    (evaluate_all o).length = 10 ∧ ∀ e ∈ evaluate_all o, e.dimension_id ≠ k := by
  constructor
  · rw [evaluate_all_eq_filterMap, length_filterMap_countP]
    have hcong : DIMENSIONS.countP (fun d => (evaluate_dimension d (o d.id)).isSome)
        = DIMENSIONS.countP (fun d => !(d.id == k)) := by
      apply List.countP_congr
      intro d hd
      rcases ho : o d.id with _ | t
      · have : d.id = k := (hk d hd).mp ho
        simp [evaluate_dimension, this]
      · have : ¬ d.id = k := by
          intro hdk
          have := (hk d hd).mpr hdk
          rw [ho] at this
          exact LLMOutcome.noConfusion this
        simp [evaluate_dimension, this]
    rw [hcong]
    have : k = 1 ∨ k = 2 ∨ k = 3 ∨ k = 4 ∨ k = 5 ∨ k = 6 ∨ k = 7 ∨ k = 8 ∨ k = 9 ∨
        k = 10 ∨ k = 11 := by
      simpa [DIMENSIONS] using hmem
    rcases this with h | h | h | h | h | h | h | h | h | h | h <;> subst h <;> decide
  · intro e he
    rw [evaluate_all_eq_filterMap] at he
    rcases List.mem_filterMap.mp he with ⟨d, hd, hde⟩
    rcases ho : o d.id with _ | t
    · rw [ho] at hde
      simp [evaluate_dimension] at hde
    · have hid : e.dimension_id = d.id := by
        rw [ho] at hde
        simp [evaluate_dimension] at hde
        rw [← hde]
      intro hek
      have : d.id = k := by rw [← hid]; exact hek
      have := (hk d hd).mpr this
      rw [ho] at this
      exact LLMOutcome.noConfusion this

/-- C1 witness: the amended statement applied at the concrete outcome
assignment where dimension 7 raises yields the 10-element result. -/
theorem evaluate_all_partial_failure_witness :
    (evaluate_all outcomesDim7Fails).length = 10 :=
  (evaluate_all_partial_failure outcomesDim7Fails 7 (by decide) (by decide)).1

/-! ## Checkpoint-store lemmas -/

theorem foldl_better_some {α : Type} (l : List (CheckpointFile α)) :
    ∀ (acc : Option (CheckpointFile α)) (r : CheckpointFile α),
      l.foldl betterCheckpoint acc = some r → acc = some r ∨ r ∈ l := by
  induction l with
  | nil =>
    intro acc r h
    exact Or.inl h
  | cons g l ih =>
    intro acc r h
    rcases ih (betterCheckpoint acc g) r h with h2 | h2
    · rcases acc with _ | b
      · simp [betterCheckpoint] at h2
        exact Or.inr (by rw [← h2]; exact List.mem_cons_self g l)
      · simp [betterCheckpoint] at h2
        by_cases hlt : b.mtime < g.mtime
        · rw [if_pos hlt] at h2
          exact Or.inr (by rw [← h2]; exact List.mem_cons_self g l)
        · rw [if_neg hlt] at h2
          exact Or.inl (by rw [h2])
    · exact Or.inr (List.mem_cons_of_mem g h2)

theorem betterCheckpoint_pick {α : Type} (acc : Option (CheckpointFile α))
    (f : CheckpointFile α) (h : ∀ b, acc = some b → b.mtime < f.mtime) :
    betterCheckpoint acc f = some f := by
  rcases acc with _ | b
  · rfl
  · simp [betterCheckpoint]
    intro hlt
    exact absurd (h b rfl) (not_lt.mpr hlt)

/-! ## Glob-matching lemmas -/

theorem globMatchGo_zero (p s : List Char) :
    globMatchGo 0 p s = (p.isEmpty && s.isEmpty) := rfl

theorem globMatchGo_succ (fuel : ℕ) (p s : List Char) :
    globMatchGo (fuel + 1) p s = globMatchStep (globMatchGo fuel) p s := rfl

theorem globMatchGo_nil_nil (f : ℕ) : globMatchGo f [] [] = true := by
  cases f <;> rfl

theorem globLiteral_cons {c : Char} {l : List Char} (h : globLiteral (c :: l) = true) :
    ¬ c = '*' ∧ ¬ c = '?' ∧ ¬ c = '[' ∧ globLiteral l = true := by
  rw [globLiteral, List.all_cons, Bool.and_eq_true] at h
  have h1 := h.1
  have h1b : isGlobMeta c = false := by
    cases hg : isGlobMeta c
    · rfl
    · rw [hg] at h1
      exact absurd h1 (by decide)
  rw [isGlobMeta] at h1b
  simp only [Bool.or_eq_false_iff, beq_eq_false_iff_ne, ne_eq] at h1b
  exact ⟨h1b.1.1, h1b.1.2, h1b.2, h.2⟩

theorem globMatchGo_literalPrefix : ∀ (pre : List Char) (f : ℕ) (p s : List Char),
    globLiteral pre = true →
    globMatchGo (pre.length + f) (pre ++ p) (pre ++ s) = globMatchGo f p s := by
  intro pre
  induction pre with
  | nil =>
    intro f p s _
    simp
  | cons c pre ih =>
    intro f p s hlit
    obtain ⟨hc1, hc2, hc3, hrest⟩ := globLiteral_cons hlit
    have hlen : (c :: pre).length + f = (pre.length + f) + 1 := by
      simp only [List.length_cons]
      omega
    rw [hlen]
    show globMatchGo ((pre.length + f) + 1) (c :: (pre ++ p)) (c :: (pre ++ s))
        = globMatchGo f p s
    rw [globMatchGo_succ]
    simp only [globMatchStep]
    rw [if_neg hc1, if_neg hc2, if_neg hc3]
    show ((c == c) && globMatchGo (pre.length + f) (pre ++ p) (pre ++ s)) = globMatchGo f p s
    rw [beq_self_eq_true, Bool.true_and]
    exact ih f p s hrest

theorem globMatchGo_literal_self (l : List Char) (f : ℕ) (hlit : globLiteral l = true) :
    globMatchGo (l.length + f) l l = true := by
  have h := globMatchGo_literalPrefix l f [] [] hlit
  simp only [List.append_nil] at h
  rw [h]
  exact globMatchGo_nil_nil f

theorem globMatchGo_star_append : ∀ (ts : List Char) (f : ℕ) (p rest : List Char),
    globMatchGo f p rest = true →
    globMatchGo (ts.length + f + 1) ('*' :: p) (ts ++ rest) = true := by
  intro ts
  induction ts with
  | nil =>
    intro f p rest h
    have hlen : ([] : List Char).length + f + 1 = f + 1 := by simp
    rw [hlen, List.nil_append, globMatchGo_succ]
    simp only [globMatchStep, if_true]
    rw [h]
    simp
  | cons c ts ih =>
    intro f p rest h
    have hlen : (c :: ts).length + f + 1 = (ts.length + f + 1) + 1 := by
      simp only [List.length_cons]
      omega
    rw [hlen, List.cons_append, globMatchGo_succ]
    simp only [globMatchStep, if_true]
    have hdrop : (c :: (ts ++ rest)).drop 1 = ts ++ rest := rfl
    rw [hdrop, ih f p rest h]
    simp

theorem globMatchGo_literalNotPrefix : ∀ (pre : List Char) (f : ℕ) (p s : List Char),
    globLiteral pre = true → charPrefix pre s = false →
    globMatchGo f (pre ++ p) s = false := by
  intro pre
  induction pre with
  | nil =>
    intro f p s _ hpre
    simp [charPrefix] at hpre
  | cons c pre ih =>
    intro f p s hlit hpre
    obtain ⟨hc1, hc2, hc3, hrest⟩ := globLiteral_cons hlit
    cases f with
    | zero =>
      rw [globMatchGo_zero, List.cons_append]
      simp
    | succ f =>
      rw [List.cons_append, globMatchGo_succ]
      simp only [globMatchStep]
      rw [if_neg hc1, if_neg hc2, if_neg hc3]
      cases s with
      | nil => rfl
      | cons c2 s2 =>
        have hpre2 : ((c == c2) && charPrefix pre s2) = false := hpre
        by_cases hcc : c = c2
        · subst hcc
          rw [beq_self_eq_true, Bool.true_and] at hpre2
          show ((c == c) && globMatchGo f (pre ++ p) s2) = false
          rw [beq_self_eq_true, Bool.true_and]
          exact ih f p s2 hrest hpre2
        · show ((c == c2) && globMatchGo f (pre ++ p) s2) = false
          rw [beq_eq_false_iff_ne.mpr hcc]
          simp

/-- A file saved under a context whose flat key prefix contains no glob
metacharacters is found by that context's own glob pattern, whatever the
timestamp. -/
theorem checkpoint_pattern_self_match (ctx : RunContext) (agent : String) (ts : List Char)
    (hlit : globLiteral (checkpointPrefix ctx agent) = true) :
    globMatch (checkpointPattern ctx agent) (checkpointName ctx agent ts) = true := by
  rw [checkpointPattern, checkpointName, globMatch]
  have hlen : (checkpointPrefix ctx agent ++ ('*' :: jsonExt)).length
      + (checkpointPrefix ctx agent ++ ts ++ jsonExt).length
      = (checkpointPrefix ctx agent).length
        + (ts.length + ((checkpointPrefix ctx agent).length + jsonExt.length + jsonExt.length)
           + 1) := by
    simp only [List.length_append, List.length_cons]
    omega
  rw [hlen, List.append_assoc]
  rw [globMatchGo_literalPrefix _ _ _ _ hlit]
  apply globMatchGo_star_append
  have hlen2 : (checkpointPrefix ctx agent).length + jsonExt.length + jsonExt.length
      = jsonExt.length + ((checkpointPrefix ctx agent).length + jsonExt.length) := by omega
  rw [hlen2]
  exact globMatchGo_literal_self jsonExt _ (by decide)

/-- A glob pattern whose flat key prefix is metacharacter-free matches no
file name the prefix does not literally start. -/
theorem checkpoint_pattern_no_match (ctx : RunContext) (agent : String) (nm : List Char)
    (hlit : globLiteral (checkpointPrefix ctx agent) = true)
    (hpre : charPrefix (checkpointPrefix ctx agent) nm = false) :
    globMatch (checkpointPattern ctx agent) nm = false := by
  rw [checkpointPattern, globMatch]
  exact globMatchGo_literalNotPrefix _ _ _ _ hlit hpre

/-! ## C5: latest-wins, absent/disabled behaviour, and its glob limits -/

/-- C5 counterexample: the uploaded document stem `[Final] deck` puts a
character class into the glob pattern, so the files just saved for this run
context never match their own lookup pattern and `load_checkpoint` returns
`none` rather than the payload of the most recent save — three saves at
times 0 < 1 < 2 load back as absent. -/
theorem checkpoint_glob_meta_load_fails :
    ctxBracket.useCheckpoints = true
    ∧ load_checkpoint ctxBracket "agent1"
        (save_checkpoint ctxBracket "agent1" 30 demoTs 2
          (save_checkpoint ctxBracket "agent1" 20 demoTs 1
            (save_checkpoint ctxBracket "agent1" (10 : ℕ) demoTs 0 []))) = none
    ∧ ¬ (load_checkpoint ctxBracket "agent1"
          (save_checkpoint ctxBracket "agent1" 30 demoTs 2
            (save_checkpoint ctxBracket "agent1" 20 demoTs 1
              (save_checkpoint ctxBracket "agent1" (10 : ℕ) demoTs 0 []))) = some 30) := by
  refine ⟨rfl, by decide, by decide⟩

/-- C5 amended: provided the run context's flat key prefix
`{agent}_{pdf_stem}_{sector}_` contains no glob metacharacters, and every
file in the directory that the context's glob pattern matches (including
any file of a colliding flat key) is older than the first save, then after
saves of `p1`, `p2`, `p3` at strictly increasing times `t1 < t2 < t3` with
checkpointing enabled `load_checkpoint` returns `p3`, the payload of the
most recently created record; and it returns `none` when no file matches
the pattern or when checkpointing is disabled for the run. -/
theorem checkpoint_latest_wins {α : Type} (ctx : RunContext) (agent : String)
    (store : List (CheckpointFile α)) (p1 p2 p3 : α) (ts1 ts2 ts3 : List Char) (t1 t2 t3 : ℕ)
    (hck : ctx.useCheckpoints = true)
    (hlit : globLiteral (checkpointPrefix ctx agent) = true)
    (h12 : t1 < t2) (h23 : t2 < t3)
    (hold : ∀ f ∈ store, globMatch (checkpointPattern ctx agent) f.name = true →
      f.mtime < t1) :
    load_checkpoint ctx agent
        (save_checkpoint ctx agent p3 ts3 t3
          (save_checkpoint ctx agent p2 ts2 t2 (save_checkpoint ctx agent p1 ts1 t1 store)))
      = some p3
    ∧ (∀ store2 : List (CheckpointFile α),
        find_latest_checkpoint store2 ctx agent = none →
          load_checkpoint ctx agent store2 = none)
    ∧ (∀ (ctx2 : RunContext) (store2 : List (CheckpointFile α)),
        ctx2.useCheckpoints = false → load_checkpoint ctx2 agent store2 = none) := by
  refine ⟨?_, ?_, ?_⟩
  · have hm1 := checkpoint_pattern_self_match ctx agent ts1 hlit
    have hm2 := checkpoint_pattern_self_match ctx agent ts2 hlit
    have hm3 := checkpoint_pattern_self_match ctx agent ts3 hlit
    have hfilter : (save_checkpoint ctx agent p3 ts3 t3
          (save_checkpoint ctx agent p2 ts2 t2
            (save_checkpoint ctx agent p1 ts1 t1 store))).filter
            (fun f => globMatch (checkpointPattern ctx agent) f.name)
        = store.filter (fun f => globMatch (checkpointPattern ctx agent) f.name)
            ++ [{ name := checkpointName ctx agent ts1, mtime := t1,
                  content := Except.ok p1 },
                { name := checkpointName ctx agent ts2, mtime := t2,
                  content := Except.ok p2 },
                { name := checkpointName ctx agent ts3, mtime := t3,
                  content := Except.ok p3 }] := by
      simp [save_checkpoint, List.filter_append, hm1, hm2, hm3]
    have hr0 : ∀ b, (store.filter
          (fun f => globMatch (checkpointPattern ctx agent) f.name)).foldl
            betterCheckpoint none = some b →
        b.mtime < t3 := by
      intro b hb
      rcases foldl_better_some _ none b hb with h | h
      · exact Option.noConfusion h
      · have hmem := List.mem_filter.mp h
        have := hold b hmem.1 (by simpa using hmem.2)
        omega
    have hfind : find_latest_checkpoint
        (save_checkpoint ctx agent p3 ts3 t3
          (save_checkpoint ctx agent p2 ts2 t2 (save_checkpoint ctx agent p1 ts1 t1 store)))
        ctx agent
        = some { name := checkpointName ctx agent ts3, mtime := t3,
                 content := Except.ok p3 } := by
      rw [find_latest_checkpoint, hfilter]
      rw [List.foldl_append]
      apply betterCheckpoint_pick
      intro b hb
      simp only [List.foldl_cons, List.foldl_nil] at hb
      have hstep1 : ∀ c, betterCheckpoint
          ((store.filter
            (fun f => globMatch (checkpointPattern ctx agent) f.name)).foldl
              betterCheckpoint none)
          { name := checkpointName ctx agent ts1, mtime := t1,
            content := Except.ok p1 } = some c → c.mtime < t3 := by
        intro c hc
        rcases hr : (store.filter
            (fun f => globMatch (checkpointPattern ctx agent) f.name)).foldl
              betterCheckpoint none with _ | b0
        · rw [hr] at hc
          simp [betterCheckpoint] at hc
          rw [← hc]
          exact lt_trans h12 h23
        · rw [hr] at hc
          simp [betterCheckpoint] at hc
          by_cases hlt : b0.mtime < t1
          · rw [if_pos hlt] at hc
            rw [← hc]
            exact lt_trans h12 h23
          · rw [if_neg hlt] at hc
            rw [← hc]
            exact hr0 b0 hr
      rcases hr1 : betterCheckpoint
          ((store.filter
            (fun f => globMatch (checkpointPattern ctx agent) f.name)).foldl
              betterCheckpoint none)
          { name := checkpointName ctx agent ts1, mtime := t1,
            content := Except.ok p1 } with _ | c1
      · rw [hr1] at hb
        simp [betterCheckpoint] at hb
        rw [← hb]
        exact h23
      · rw [hr1] at hb
        simp [betterCheckpoint] at hb
        by_cases hlt : c1.mtime < t2
        · rw [if_pos hlt] at hb
          rw [← hb]
          exact h23
        · rw [if_neg hlt] at hb
          rw [← hb]
          exact hstep1 c1 hr1
    simp [load_checkpoint, hck, hfind]
  · intro store2 h
    cases hck2 : ctx.useCheckpoints <;> simp [load_checkpoint, hck2, h]
  · intro ctx2 store2 h
    simp [load_checkpoint, h]

/-- C5 witness: three saves at times 0 < 1 < 2 into an empty store under a
metacharacter-free context; the load returns the payload saved at time 2. -/
theorem checkpoint_latest_wins_witness :
    load_checkpoint ctxOldModel "agent1"
        (save_checkpoint ctxOldModel "agent1" 30 demoTs 2
          (save_checkpoint ctxOldModel "agent1" 20 demoTs 1
            (save_checkpoint ctxOldModel "agent1" (10 : ℕ) demoTs 0 []))) = some 30 :=
  (checkpoint_latest_wins ctxOldModel "agent1" [] 10 20 30 demoTs demoTs demoTs 0 1 2 rfl
    (by decide) (by decide) (by decide) (by simp)).1

/-! ## C2: what the checkpoint key does and does not contain -/

/-- C2 counterexample, in two parts.  First, two run contexts agreeing on
document and sector but differing in both provider and model share
checkpoint records — a save under the old model changes what
`load_checkpoint` returns under the new model from `none` to the old
payload, because the flat file-name key
`{agent}_{pdf_name}_{sector}_{timestamp}` contains no provider or model
component.  Second, even document/sector isolation fails: the flat key is
underscore-delimited, so pdf stem `pitch` with sector `deck_ai` and pdf
stem `pitch_deck` with sector `ai` build the same key string, and a save
under one is returned by a load under the other. -/
theorem checkpoint_key_ignores_model :
    ctxOldModel.pdfName = ctxNewModel.pdfName
    ∧ ctxOldModel.sector = ctxNewModel.sector
    ∧ ctxOldModel.provider ≠ ctxNewModel.provider
    ∧ ctxOldModel.model ≠ ctxNewModel.model
    ∧ load_checkpoint ctxNewModel "agent1" ([] : List (CheckpointFile ℕ)) = none
    ∧ load_checkpoint ctxNewModel "agent1"
        (save_checkpoint ctxOldModel "agent1" (42 : ℕ) demoTs 5 []) = some 42
    ∧ ctxUnderA.pdfName ≠ ctxUnderB.pdfName
    ∧ ctxUnderA.sector ≠ ctxUnderB.sector
    ∧ load_checkpoint ctxUnderB "agent1" ([] : List (CheckpointFile ℕ)) = none
    ∧ load_checkpoint ctxUnderB "agent1"
        (save_checkpoint ctxUnderA "agent1" (7 : ℕ) demoTs 5 []) = some 7 := by
  refine ⟨rfl, rfl, by decide, by decide, by decide, by decide, by decide, by decide,
    by decide, by decide⟩

/-- C2 amended: the checkpoint key is the flat string
`{agent}_{pdf_stem}_{sector}_`; a save under run context A never changes
what `load_checkpoint` returns under run context B whenever B's flat key
prefix is free of glob metacharacters and is not a character prefix of the
file name A saves.  Contexts differing only in provider or model always
share records, and distinct (document, sector) pairs whose flat
underscore-delimited keys coincide also share records. -/
theorem checkpoint_document_sector_isolation {α : Type} (ctxA ctxB : RunContext)
    (agentA agentB : String) (p : α) (ts : List Char) (t : ℕ)
    (store : List (CheckpointFile α))
    (hlit : globLiteral (checkpointPrefix ctxB agentB) = true)
    (hpre : charPrefix (checkpointPrefix ctxB agentB) (checkpointName ctxA agentA ts)
      = false) :
    load_checkpoint ctxB agentB (save_checkpoint ctxA agentA p ts t store)
      = load_checkpoint ctxB agentB store := by
  have hm := checkpoint_pattern_no_match ctxB agentB (checkpointName ctxA agentA ts) hlit hpre
  have hfind : find_latest_checkpoint (save_checkpoint ctxA agentA p ts t store) ctxB agentB
      = find_latest_checkpoint store ctxB agentB := by
    simp [find_latest_checkpoint, save_checkpoint, List.filter_append, hm]
  simp [load_checkpoint, hfind]

/-- C2 amended witness: a save under the fintech context does not affect a
load under the healthtech context, whose flat key prefix is literal and not
a prefix of the saved name. -/
theorem checkpoint_document_sector_isolation_witness :
    load_checkpoint ctxOtherSector "agent1"
        (save_checkpoint ctxOldModel "agent1" (42 : ℕ) demoTs 5 [])
      = load_checkpoint ctxOtherSector "agent1" ([] : List (CheckpointFile ℕ)) :=
  checkpoint_document_sector_isolation ctxOldModel ctxOtherSector "agent1" "agent1" 42
    demoTs 5 [] (by decide) (by decide)

/-! ## C10: `load_checkpoint` is total; corrupted behaves like absent -/

/-- C6 counterexample: with the 3 parsed ideas of `demoIdeasText`, the
caller-supplied out-of-range index -4 is not clamped to the last idea — the
subscript `parsed_ideas[min(-4, 2)]` raises `IndexError`, so the selection
step can raise on an out-of-range index. -/
theorem select_idea_negative_index_raises :
    (parse_ideas demoIdeasText).length = 3
    ∧ select_idea (parse_ideas demoIdeasText) (-4) = Except.error SelectError.indexError := by
  refine ⟨by decide, by decide⟩

/-- C6 amended: the selection step fails with the fatal no-ideas error
exactly when parsing yields zero entries; for every non-empty parsed list
and every non-negative caller-supplied index it never errors and selects
the entry at index `min(idea_index, length - 1)` (out-of-range indexes are
clamped to the last idea); an index below `-length`, however, raises
`IndexError` through Python's negative-subscript rule. -/
theorem select_idea_clamps {α : Type} (parsed : List α) (i : ℤ) :
    (select_idea parsed i = Except.error SelectError.noIdeas ↔ parsed = [])
    ∧ (0 ≤ i → parsed ≠ [] →
        ∃ x, select_idea parsed i = Except.ok x
          ∧ parsed.get? (min i ((parsed.length : ℤ) - 1)).toNat = some x)
    ∧ (i < -(parsed.length : ℤ) → parsed ≠ [] →
        select_idea parsed i = Except.error SelectError.indexError) := by
  refine ⟨?_, ?_, ?_⟩
  · rcases parsed with _ | ⟨a, l⟩
    · simp [select_idea]
    · rw [select_idea]
      simp only [List.isEmpty_cons, Bool.false_eq_true, if_false]
      rcases h : pyIndex (a :: l) (min i (((a :: l).length : ℤ) - 1)) with _ | x <;>
        simp [h]
  · intro hi hne
    have hlen : 1 ≤ parsed.length := List.length_pos.mpr hne
    have hm0 : 0 ≤ min i ((parsed.length : ℤ) - 1) := le_min hi (by omega)
    have hmlt : min i ((parsed.length : ℤ) - 1) < (parsed.length : ℤ) :=
      lt_of_le_of_lt (min_le_right i ((parsed.length : ℤ) - 1)) (by omega)
    have hnat : (min i ((parsed.length : ℤ) - 1)).toNat < parsed.length := by omega
    have hempty : parsed.isEmpty = false := by
      rcases parsed with _ | ⟨a, l⟩
      · exact absurd rfl hne
      · rfl
    have hidx : pyIndex parsed (min i ((parsed.length : ℤ) - 1))
        = some (parsed.get ⟨(min i ((parsed.length : ℤ) - 1)).toNat, hnat⟩) := by
      rw [pyIndex, if_pos hm0]
      exact List.get?_eq_get hnat
    refine ⟨parsed.get ⟨(min i ((parsed.length : ℤ) - 1)).toNat, hnat⟩, ?_, ?_⟩
    · rw [select_idea]
      simp only [hempty, Bool.false_eq_true, if_false, hidx]
    · exact List.get?_eq_get hnat
  · intro hi hne
    have hlen : 1 ≤ parsed.length := List.length_pos.mpr hne
    have hempty : parsed.isEmpty = false := by
      rcases parsed with _ | ⟨a, l⟩
      · exact absurd rfl hne
      · rfl
    have hmin : min i ((parsed.length : ℤ) - 1) = i := min_eq_left (by omega)
    have hidx : pyIndex parsed (min i ((parsed.length : ℤ) - 1)) = none := by
      rw [hmin, pyIndex, if_neg (by omega), if_neg (by omega)]
    rw [select_idea]
    simp only [hempty, Bool.false_eq_true, if_false, hidx]

/-- C6 witness: the amended theorem applied at the concrete index -5 with
the 3 parsed demo ideas, yielding the Python `IndexError` clause. -/
theorem select_idea_clamps_witness :
    select_idea (parse_ideas demoIdeasText) (-5) = Except.error SelectError.indexError :=
  (select_idea_clamps (parse_ideas demoIdeasText) (-5)).2.2 (by decide) (by decide)

/-! ## C9: progress-event ordering -/

theorem dimStepEvents_eq (b : DimBranch) (idx : ℕ) :
    dimStepEvents b idx = [(3 + idx, EvStatus.running), (3 + idx, EvStatus.completed)] := by
  cases b <;> rfl

theorem agent3Events_eq (branch : ℕ → DimBranch) :
    agent3Events branch
      = [(3, EvStatus.running), (3, EvStatus.completed),
         (4, EvStatus.running), (4, EvStatus.completed),
         (5, EvStatus.running), (5, EvStatus.completed),
         (6, EvStatus.running), (6, EvStatus.completed),
         (7, EvStatus.running), (7, EvStatus.completed),
         (8, EvStatus.running), (8, EvStatus.completed),
         (9, EvStatus.running), (9, EvStatus.completed),
         (10, EvStatus.running), (10, EvStatus.completed),
         (11, EvStatus.running), (11, EvStatus.completed),
         (12, EvStatus.running), (12, EvStatus.completed),
         (13, EvStatus.running), (13, EvStatus.completed)] := by
  have hr : List.range 11 = [0, 1, 2, 3, 4, 5, 6, 7, 8, 9, 10] := rfl
  rw [agent3Events, hr]
  simp [List.foldl_cons, List.foldl_nil, dimStepEvents_eq]

theorem score_pdf_events_cases (o : RunOracle) :
    score_pdf_events o = (canonicalTrace.take 1, false)
    ∨ score_pdf_events o = (canonicalTrace.take 3, false)
    ∨ score_pdf_events o = (canonicalTrace.take 4, false)
    ∨ score_pdf_events o = (canonicalTrace.take 27, false)
    ∨ score_pdf_events o = (canonicalTrace.take 29, false)
    ∨ score_pdf_events o = (canonicalTrace.take 31, false)
    ∨ score_pdf_events o = (canonicalTrace.take 33, false)
    ∨ score_pdf_events o = (canonicalTrace, true) := by
  obtain ⟨eo, io, pc, db, so, sto, co, cso⟩ := o
  have hd := agent3Events_eq db
  by_cases hpc : pc = 0
  · subst hpc
    cases eo <;> cases io <;> cases so <;> cases sto <;> cases co <;> cases cso <;>
      simp only [score_pdf_events] <;> rw [hd] <;> decide
  · cases eo <;> cases io <;> cases so <;> cases sto <;> cases co <;> cases cso <;>
      simp only [score_pdf_events] <;> rw [hd] <;> rw [if_neg hpc] <;> decide

set_option maxHeartbeats 1600000 in
/-- C9: every run of the orchestrator emits a prefix of the canonical
34-event trace (so step numbers are non-decreasing along any run, aborted
or not), a completed run emits exactly the canonical trace covering steps 1
through 17, and in that trace each step's `running` event strictly precedes
the same step's `completed` event. -/
theorem progress_events_ordered (o : RunOracle) :
    (score_pdf_events o).1 = canonicalTrace.take (score_pdf_events o).1.length
    ∧ ((score_pdf_events o).2 = true → (score_pdf_events o).1 = canonicalTrace)
    ∧ stepsMonotone (score_pdf_events o).1 = true
    ∧ runningPrecedesCompleted canonicalTrace = true := by
  refine ⟨?_, ?_, ?_, ?_⟩
  · rcases score_pdf_events_cases o with h | h | h | h | h | h | h | h <;> rw [h] <;> decide
  · rcases score_pdf_events_cases o with h | h | h | h | h | h | h | h <;> rw [h] <;>
      intro hh <;>
        first
          | exact absurd hh (by decide)
          | decide
  · rcases score_pdf_events_cases o with h | h | h | h | h | h | h | h <;> rw [h] <;> decide
  · decide

/-- C9 witness: the all-success oracle completes and emits exactly the
canonical trace. -/
theorem progress_events_ordered_witness :
    (score_pdf_events oracleAllOk).1 = canonicalTrace :=
  (progress_events_ordered oracleAllOk).2.1 (by decide)

/-! ## C8: chunking bounds and the synthesis call -/

theorem hardSplitGo_length_le (mc : ℕ) (hmc : mc ≠ 0) :
    ∀ (fuel : ℕ) (p : List Char), p.length ≤ fuel →
      ∀ c ∈ hardSplitGo mc fuel p, c.length ≤ mc := by
  intro fuel
  induction fuel with
  | zero =>
    intro p hp c hc
    have : p = [] := List.length_eq_zero.mp (Nat.le_zero.mp hp)
    subst this
    simp [hardSplitGo] at hc
  | succ fuel ih =>
    intro p hp c hc
    rw [hardSplitGo] at hc
    by_cases hpe : p.isEmpty
    · rw [if_pos hpe] at hc
      simp at hc
    · rw [if_neg hpe] at hc
      rcases List.mem_cons.mp hc with h | h
      · subst h
        simp [List.length_take]
      · apply ih (p.drop mc) ?_ c h
        have hmc1 : 1 ≤ mc := Nat.one_le_iff_ne_zero.mpr hmc
        simp only [List.length_drop]
        omega

theorem hardSplit_length_le (p : List Char) (mc : ℕ) (hmc : mc ≠ 0) :
    ∀ c ∈ hardSplit p mc, c.length ≤ mc := by
  rw [hardSplit, if_neg hmc]
  exact hardSplitGo_length_le mc hmc p.length p le_rfl

theorem chunk_fold_invariant (paras : List (List Char)) (mc : ℕ) (hmc : mc ≠ 0) :
    ∀ (l : List (List Char)) (st : List (List Char) × List Char),
      (∀ p ∈ l, p ∈ paras) →
      (∀ c ∈ st.1, c.length ≤ mc ∨ c ∈ paras) →
      (st.2.length ≤ mc ∨ st.2 ∈ paras) →
      (∀ c ∈ (l.foldl (chunkStep mc) st).1, c.length ≤ mc ∨ c ∈ paras)
      ∧ ((l.foldl (chunkStep mc) st).2.length ≤ mc ∨ (l.foldl (chunkStep mc) st).2 ∈ paras) := by
  intro l
  induction l with
  | nil =>
    intro st hmem h2 h3
    exact ⟨h2, h3⟩
  | cons p l ih =>
    intro st hmem h2 h3
    rw [List.foldl_cons]
    have hpmem : p ∈ paras := hmem p (List.mem_cons_self p l)
    apply ih
    · intro q hq
      exact hmem q (List.mem_cons_of_mem p hq)
    · intro c hc
      rw [chunkStep] at hc
      by_cases hb1 : st.2.length + p.length + 2 > mc
      · rw [if_pos hb1] at hc
        by_cases hb2 : st.2.isEmpty
        · rw [if_pos hb2] at hc
          rcases List.mem_append.mp hc with h | h
          · exact h2 c h
          · exact Or.inl (hardSplit_length_le p mc hmc c h)
        · rw [if_neg hb2] at hc
          rcases List.mem_append.mp hc with h | h
          · exact h2 c h
          · rw [List.mem_singleton.mp h]
            exact h3
      · rw [if_neg hb1] at hc
        by_cases hb2 : st.2.isEmpty
        · rw [if_pos hb2] at hc
          exact h2 c hc
        · rw [if_neg hb2] at hc
          exact h2 c hc
    · rw [chunkStep]
      by_cases hb1 : st.2.length + p.length + 2 > mc
      · rw [if_pos hb1]
        by_cases hb2 : st.2.isEmpty
        · rw [if_pos hb2]
          exact Or.inl (by simp)
        · rw [if_neg hb2]
          exact Or.inr hpmem
      · rw [if_neg hb1]
        by_cases hb2 : st.2.isEmpty
        · rw [if_pos hb2]
          exact Or.inr hpmem
        · rw [if_neg hb2]
          apply Or.inl
          have : ¬ mc < st.2.length + p.length + 2 := hb1
          simp only [List.length_append, paraSep]
          simp only [List.length_cons, List.length_nil]
          omega

/-- C8 counterexample: with `maxTokens = 1` (budget 4 characters) and the
12-character document `"ab\n\nabcdefgh"`, `chunk_text` produces the chunks
`["ab", "abcdefgh"]` — the second chunk is 8 characters long, exceeding
`max_tokens * 4 = 4`, and the oversized paragraph was not hard-split
because it arrived while the current chunk was non-empty. -/
theorem chunk_text_chunk_exceeds_budget :
    demoDoc.length = 12
    ∧ chunk_text demoDoc 1 = [("ab").data, ("abcdefgh").data]
    ∧ (chunk_text demoDoc 1).map List.length = [2, 8]
    ∧ ¬ (∀ c ∈ chunk_text demoDoc 1, c.length ≤ 1 * 4) := by
  refine ⟨by decide, by decide, by decide, by decide⟩

/-- C8 amended: for a positive token budget, every chunk produced by
`chunk_text` either fits in `max_tokens * 4` characters or is exactly one
whole paragraph of the input that exceeds the budget on its own (so a chunk
boundary falls inside a paragraph only when that paragraph alone exceeds
the budget and is hard-split — an oversized paragraph that does not start a
fresh chunk is kept whole instead, which can exceed the budget); and when
more than one chunk results, `_extract_chunked` performs exactly one
additional synthesis LLM call merging the per-chunk extractions. -/
theorem chunk_text_bounds_and_synthesis (text : List Char) (maxTokens : ℕ)
    (hmt : 0 < maxTokens) :
    (∀ c ∈ chunk_text text maxTokens,
      c.length ≤ maxTokens * 4 ∨ c ∈ splitOnSeq paraSep text)
    ∧ (∀ chunkLLM synthLLM : List Char → List Char,
        1 < (chunk_text text maxTokens).length →
          extract_chunked chunkLLM synthLLM text maxTokens
            = (synthLLM (joinChunkExtractions ((chunk_text text maxTokens).map chunkLLM)),
               (chunk_text text maxTokens).length + 1)) := by
  have hmc : maxTokens * 4 ≠ 0 := by omega
  constructor
  · intro c hc
    rw [chunk_text] at hc
    by_cases hfit : text.length ≤ maxTokens * 4
    · rw [if_pos hfit] at hc
      rw [List.mem_singleton.mp hc]
      exact Or.inl hfit
    · rw [if_neg hfit] at hc
      have hinv := chunk_fold_invariant (splitOnSeq paraSep text) (maxTokens * 4) hmc
        (splitOnSeq paraSep text) ([], []) (fun p hp => hp) (by simp) (Or.inl (by simp))
      by_cases hce : ((splitOnSeq paraSep text).foldl (chunkStep (maxTokens * 4)) ([], [])).2.isEmpty
      · rw [if_pos hce] at hc
        exact hinv.1 c hc
      · rw [if_neg hce] at hc
        rcases List.mem_append.mp hc with h | h
        · exact hinv.1 c h
        · rw [List.mem_singleton.mp h]
          exact hinv.2
  · intro chunkLLM synthLLM h
    rw [extract_chunked]
    simp only [if_pos h]

/-- C8 witness: the synthesis clause applied to the concrete 2-chunk
document with identity oracles: exactly one extra LLM call, 3 calls in
total. -/
theorem chunk_text_bounds_and_synthesis_witness :
    extract_chunked id id demoDoc 1
      = (id (joinChunkExtractions ((chunk_text demoDoc 1).map id)),
         (chunk_text demoDoc 1).length + 1) :=
  (chunk_text_bounds_and_synthesis demoDoc 1 (by decide)).2 id id (by decide)

end VB
